/-
Verification of the agentic-ai-shopper repository (src/agent.py, src/app.py)
against its natural-language specification.

The Python source is shallowly embedded: pure functions become Lean functions,
the FastAPI handlers' session logic becomes explicit state passing over an
association-list session table, Python floats parsed from decimal strings are
represented exactly as rationals (ℚ), and fallible paths return Except/Option.
Browser, network and screenshot effects are I/O and are outside the embedding;
the embedded fragments are the deterministic data-flow parts the claims are
about (price parsing, ranking, the planner's local fallback, session selection
and state transitions, and the teardown order of BrowserController.__aexit__).
-/
import Mathlib

namespace Shopper

/-! ### agent.py — data model

`Product` embeds the `Product` dataclass (agent.py lines 23-30).  `price` is
the exact rational value of the parsed float; `currency` is the single matched
currency-symbol character.  The `extra` field (a `Dict[str, Any]` that is never
written or read anywhere in the repository) is embedded as an association list
of strings. -/

structure Product where
  title : String
  price : Option ℚ
  currency : Option Char
  url : String
  store : String
  extra : List (String × String) := []
deriving DecidableEq

/-! ### agent.py — parse_price (lines 34-44)

`parse_price` removes thousands separators and then runs
`re.search(r'([£$€])?\s*([0-9]+(?:\.[0-9]{1,2})?)', t)`.  The regex is embedded
as a deterministic scanner: at each start position (leftmost first) it tries to
take an optional currency symbol, then greedily any whitespace, then one or
more digits, then optionally a dot followed by one or two digits.  No
backtracking is needed for this particular pattern: whenever an optional piece
is taken greedily and the remainder fails, skipping the piece also fails
(a currency symbol or space is never a digit). -/

def isCurrencySymbol (c : Char) : Bool :=
  c = '£' || c = '$' || c = '€'

/-- Python's `\s` on ASCII input: space, tab, newline, carriage return,
vertical tab, form feed.  (Unicode whitespace is out of scope.) -/
def isPySpace (c : Char) : Bool :=
  c = ' ' || c = '\t' || c = '\n' || c = '\r' || c = '\x0b' || c = '\x0c'

/-- Numeric value of a list of decimal digit characters. -/
def digitsToNat (ds : List Char) : ℕ :=
  ds.foldl (fun a c => 10 * a + (c.toNat - 48)) 0

/-- Exact value of Python `float(s)` where `s` is the matched group 2, an
integer digit string `ip` optionally followed by a dot and fraction digits
`fp`. -/
def decimalVal (ip fp : List Char) : ℚ :=
  mkRat (digitsToNat (ip ++ fp)) (10 ^ fp.length)

/-- One attempt of the price regex at a fixed start position: optional
currency symbol, then `\s*`, then `[0-9]+`, then `(?:\.[0-9]{1,2})?`.
Returns the captured currency (group 1) and the value of group 2. -/
def matchPriceAt (l : List Char) : Option (Option Char × ℚ) :=
  let (cur, l1) :=
    match l with
    | c :: rest => if isCurrencySymbol c then (some c, rest) else (none, l)
    | [] => ((none : Option Char), ([] : List Char))
  let l2 := l1.dropWhile isPySpace
  let ip := l2.takeWhile Char.isDigit
  let l3 := l2.dropWhile Char.isDigit
  if ip.isEmpty then none
  else
    let fp :=
      match l3 with
      | '.' :: r => (r.takeWhile Char.isDigit).take 2
      | _ => []
    some (cur, decimalVal ip fp)

/-- `re.search`: the leftmost start position at which the pattern matches
wins. -/
def searchPrice : List Char → Option (Option Char × ℚ)
  | [] => none
  | c :: rest =>
    match matchPriceAt (c :: rest) with
    | some r => some r
    | none => searchPrice rest

/-- Embeds `parse_price` (agent.py lines 34-44).  A `None` or empty input is
falsy in Python (`if not text`), giving `(None, None)`; otherwise commas are
removed and the regex is searched; group 1 may be absent
(`m.group(1) or None`). -/
def parse_price (text : Option String) : Option ℚ × Option Char :=
  match text with
  | none => (none, none)
  | some s =>
    if s.data.isEmpty then (none, none)
    else
      let t := s.data.filter (fun c => c ≠ ',')
      match searchPrice t with
      | none => (none, none)
      | some (cur, v) => (some v, cur)

/-! ### agent.py — ProductSelector.rank (lines 168-192) -/

/-- Constraint dictionary consumed by `rank`: `constraints.get("max_price")`
and `constraints.get("must_have", [])`. -/
structure Constraints where
  max_price : Option ℚ
  must_have : List String
deriving DecidableEq

/-- Python `str.lower()` on ASCII text. -/
def lowerChars (l : List Char) : List Char := l.map Char.toLower

/-- Python substring membership `needle in hay`: `needle` is a prefix of some
suffix of `hay` (the empty needle is contained in everything). -/
def strContainsChars (needle : List Char) : List Char → Bool
  | [] => List.isPrefixOf needle []
  | c :: t => List.isPrefixOf needle (c :: t) || strContainsChars needle t

/-- The price clause of the filter pass: a product is dropped (`continue`)
exactly when both `max_price` and its `price` are present and
`price > max_price`. -/
def pricePasses (maxPrice : Option ℚ) (p : Product) : Bool :=
  match maxPrice, p.price with
  | some mp, some pr => !(pr > mp)
  | _, _ => true

/-- The keyword clause of the filter pass: when `must_have` is non-empty,
every keyword, lower-cased, must occur in the lower-cased title. -/
def mustHavePasses (mustHave : List String) (p : Product) : Bool :=
  if mustHave.isEmpty then true
  else mustHave.all (fun k =>
    strContainsChars (lowerChars k.data) (lowerChars p.title.data))

/-- A product survives the filter pass iff it passes both clauses. -/
def passesFilter (c : Constraints) (p : Product) : Bool :=
  pricePasses c.max_price p && mustHavePasses c.must_have p

/-- Python float truthiness for the `if product.price:` test inside `score`:
`None` and `0.0` are falsy. -/
def ratTruthy : Option ℚ → Bool
  | none => false
  | some x => !(x = 0 : Bool)

/-- The sort key `score` (agent.py lines 186-190): starts at `0` and adds the
price only when it is truthy; so an absent (or zero) price scores zero. -/
def score (p : Product) : ℚ :=
  if ratTruthy p.price then p.price.getD 0 else 0

/-- The filter-or-fallback base list of `rank`: the filtered list, or the
whole input when the filter removed everything (`filtered = products[:]`). -/
def rankBase (products : List Product) (c : Constraints) : List Product :=
  let filtered := products.filter (passesFilter c)
  if filtered.isEmpty then products else filtered

/-- Embeds `ProductSelector.rank` (agent.py lines 172-192).  Python
`list.sort(key=score, reverse=not prefer_low_price)` is a stable sort by the
key; a stable sort is embedded as insertion sort, whose output is the unique
stably-sorted permutation.  `reverse=True` is Python's stable descending
sort, i.e. stable sort under the flipped key comparison. -/
def rank (prefer_low_price : Bool) (products : List Product) (c : Constraints) :
    List Product :=
  if prefer_low_price then
    List.insertionSort (fun a b => score a ≤ score b) (rankBase products c)
  else
    List.insertionSort (fun a b => score b ≤ score a) (rankBase products c)

/-! ### agent.py — LLMPlanner.plan, local fallback branch (lines 338-346)

The oracle call and its JSON parse are external; the claim is about the
deterministic fallback executed when `json.loads` raises. -/

/-- The structured plan dictionary. -/
structure Plan where
  query : String
  store : Option String
  max_price : Option ℚ
  must_have : List String
deriving DecidableEq

/-- One attempt of `re.search(r'under\s*\$?([0-9]+)', user_request)` at a
fixed start position: the literal `under`, then `\s*`, then an optional `$`,
then one or more digits. -/
def matchUnderAt (l : List Char) : Option ℕ :=
  match l with
  | 'u' :: 'n' :: 'd' :: 'e' :: 'r' :: rest =>
    let l2 := rest.dropWhile isPySpace
    let l3 := match l2 with | '$' :: r => r | _ => l2
    let ds := l3.takeWhile Char.isDigit
    if ds.isEmpty then none else some (digitsToNat ds)
  | _ => none

/-- Leftmost match of the `under $N` pattern. -/
def searchUnder : List Char → Option ℕ
  | [] => none
  | c :: rest =>
    match matchUnderAt (c :: rest) with
    | some n => some n
    | none => searchUnder rest

/-- The store-name scan: `for s in ["amazon","ebay","walmart"]` with no
break, so the *last* store name contained in the lower-cased request wins. -/
def detectStore (user_request : String) : Option String :=
  let lowReq := lowerChars user_request.data
  ["amazon", "ebay", "walmart"].foldl
    (fun acc s => if strContainsChars s.data lowReq then some s else acc) none

/-- Embeds the fallback branch of `LLMPlanner.plan` (agent.py lines 338-346):
`{"query": user_request, "store": store, "max_price": max_price,
"must_have": []}` where `max_price` is `float(m.group(1))` from the
`under $N` regex. -/
def fallbackPlan (user_request : String) : Plan :=
  { query := user_request
    store := detectStore user_request
    max_price := (searchUnder user_request.data).map (fun n => (n : ℚ))
    must_have := [] }

/-! ### agent.py — BrowserController.__aexit__ (lines 64-72)

Teardown is embedded as a function from the controller's resource flags and a
fault assignment (which close operations raise) to the sequence of teardown
steps actually invoked and whether an exception escapes.  The Python body is

    try:
        if self.context:  await self.context.close()
        if self.browser:  await self.browser.close()
    finally:
        if self.playwright: await self.playwright.stop()

so `context.close` and `browser.close` share a single try block while
`playwright.stop` runs in the `finally` clause. -/

inductive TeardownStep where
  | closeContext
  | closeBrowser
  | stopPlaywright
deriving DecidableEq

/-- Which of the controller's resources are live at exit. -/
structure BrowserControllerState where
  hasContext : Bool
  hasBrowser : Bool
  hasPlaywright : Bool
deriving DecidableEq

/-- Fault model: which teardown calls raise when invoked. -/
structure TeardownFaults where
  contextCloseRaises : Bool
  browserCloseRaises : Bool
  playwrightStopRaises : Bool
deriving DecidableEq

/-- The try block of `__aexit__`: steps invoked in order, and whether the
block ends with a pending exception.  A raise in `context.close` abandons the
rest of the block, so `browser.close` is not invoked. -/
def aexitBody (s : BrowserControllerState) (f : TeardownFaults) :
    List TeardownStep × Bool :=
  if s.hasContext then
    if f.contextCloseRaises then ([.closeContext], true)
    else if s.hasBrowser then
      ([.closeContext, .closeBrowser], f.browserCloseRaises)
    else ([.closeContext], false)
  else if s.hasBrowser then ([.closeBrowser], f.browserCloseRaises)
  else ([], false)

/-- Embeds `__aexit__`: the try block, then the `finally` clause, which runs
whether or not the block raised; an exception escapes if either the block or
the `finally` clause raised. -/
def aexit (s : BrowserControllerState) (f : TeardownFaults) :
    List TeardownStep × Bool :=
  let (steps, exc) := aexitBody s f
  if s.hasPlaywright then
    (steps ++ [.stopPlaywright], exc || f.playwrightStopRaises)
  else (steps, exc)

/-! ### app.py — session store and handlers

`SESSIONS` is embedded as an association list keyed by the session id; dict
assignment of a fresh id is list prepending, in-place mutation of a stored
session dict is pointwise replacement.  The browser-driving parts of the
handlers (navigation, add-to-cart, screenshots, `page_url` capture) are I/O
and outside the embedding; the embedded fragments are the session lookup,
product selection, state transition and response-shaping logic the claims are
about. -/

/-- A stored session dict: `{"plan": ..., "products": ranked, "page_url":
None, "last_page_html": None}`, with `"chosen"` added by a successful
`choose`. -/
structure Session where
  plan : Plan
  products : List Product
  chosen : Option Product := none
  page_url : Option String := none
  last_page_html : Option String := none
deriving DecidableEq

/-- The `ChooseRequest` pydantic model (both fields optional). -/
structure ChooseRequest where
  product_index : Option ℤ := none
  product_url : Option String := none
deriving DecidableEq

/-- A FastAPI `HTTPException(status_code, detail)`. -/
inductive ApiError where
  | http (status : ℕ) (detail : String)
deriving DecidableEq

instance {ε α : Type} [DecidableEq ε] [DecidableEq α] :
    DecidableEq (Except ε α) := fun a b =>
  match a, b with
  | .error e, .error e' =>
    if h : e = e' then .isTrue (by rw [h]) else .isFalse (by simp [h])
  | .ok v, .ok v' =>
    if h : v = v' then .isTrue (by rw [h]) else .isFalse (by simp [h])
  | .error _, .ok _ => .isFalse (by simp)
  | .ok _, .error _ => .isFalse (by simp)

/-- `SESSIONS[sid]` lookup (first binding wins, matching dict overwrite by
prepend). -/
def sessionsLookup (sessions : List (String × Session)) (sid : String) :
    Option Session :=
  (sessions.find? (fun e => e.1 = sid)).map (fun e => e.2)

/-- In-place mutation of the session dict stored under `sid`. -/
def sessionsUpdate (sessions : List (String × Session)) (sid : String)
    (s : Session) : List (String × Session) :=
  sessions.map (fun e => if e.1 = sid then (e.1, s) else e)

/-- Python truthiness of an optional string (`if body.product_url:`): absent
and empty are both falsy. -/
def strTruthy : Option String → Bool
  | none => false
  | some s => !s.isEmpty

/-- The product-selection logic of `choose` (app.py lines 85-93): a truthy
`product_url` selects the first exact URL match; otherwise a present
`product_index` selects by bounds-checked index; otherwise nothing is
selected. -/
def chooseSelect (products : List Product) (body : ChooseRequest) :
    Option Product :=
  if strTruthy body.product_url then
    products.find? (fun p => p.url = body.product_url.getD "")
  else
    match body.product_index with
    | some i =>
      if h : 0 ≤ i ∧ i < (products.length : ℤ) then
        some (products.get ⟨i.toNat, by omega⟩)
      else none
    | none => none

/-- Embeds the session logic of the `choose` handler (app.py lines 80-110):
unknown session id → 404, empty selection → 400, otherwise the chosen product
is recorded in the session.  Returns the updated session table and the chosen
product. -/
def choose (sessions : List (String × Session)) (sid : String)
    (body : ChooseRequest) :
    Except ApiError (List (String × Session) × Product) :=
  match sessionsLookup sessions sid with
  | none => .error (.http 404 "Session not found")
  | some session =>
    match chooseSelect session.products body with
    | none => .error (.http 400 "Product not found in session")
    | some p =>
      .ok (sessionsUpdate sessions sid { session with chosen := some p }, p)

/-- Embeds the session logic of the `checkout` handler (app.py lines
113-119): unknown session id → 404, no chosen product → 400 invalid-state,
otherwise checkout proceeds on the chosen product (a `Product` instance is
always truthy, so `if not chosen` is exactly the `None` test). -/
def checkout (sessions : List (String × Session)) (sid : String) :
    Except ApiError Product :=
  match sessionsLookup sessions sid with
  | none => .error (.http 404 "Session not found")
  | some session =>
    match session.chosen with
    | none => .error (.http 400 "No product chosen for this session")
    | some p => .ok p

/-- One entry of the `out` list built by `plan_and_search` (app.py line 76). -/
structure ProductSummary where
  index : ℕ
  title : String
  price : Option ℚ
  currency : Option Char
  url : String
  store : String
deriving DecidableEq

def summarize (i : ℕ) (p : Product) : ProductSummary :=
  { index := i, title := p.title, price := p.price, currency := p.currency
    url := p.url, store := p.store }

/-- Embeds the session-creation and response-shaping tail of
`plan_and_search` (app.py lines 70-77): the *complete* ranked list is stored
under the fresh session id, while the response enumerates only
`ranked[:10]`. -/
def planAndSearchStore (sessions : List (String × Session)) (sid : String)
    (plan : Plan) (ranked : List Product) :
    List (String × Session) × List ProductSummary :=
  ((sid, { plan := plan, products := ranked }) :: sessions,
   (ranked.take 10).enum.map (fun e => summarize e.1 e.2))

/-! ### Concrete data used to instantiate the theorems -/

def planW : Plan :=
  { query := "wireless mouse", store := none, max_price := some 20
    must_have := [] }

def pW : Product :=
  { title := "Wireless Mouse", price := some (mkRat 12 1), currency := some '$'
    url := "https://example.com/p/w", store := "generic" }

def pW15 : Product :=
  { title := "Wireless Mouse 15", price := some (mkRat 15 1)
    currency := some '$', url := "https://example.com/p/15", store := "amazon" }

def pW40 : Product :=
  { title := "Wireless Mouse 40", price := some (mkRat 40 1)
    currency := some '$', url := "https://example.com/p/40", store := "ebay" }

def pS1 : Product :=
  { title := "Mouse S1", price := some (mkRat 5 1), currency := some '$'
    url := "https://example.com/p/s1", store := "amazon" }

def pS2 : Product :=
  { title := "Mouse S2", price := some (mkRat 5 1), currency := some '$'
    url := "https://example.com/p/s2", store := "walmart" }

def pN : Product :=
  { title := "Mystery Mouse", price := none, currency := none
    url := "https://example.com/p/n", store := "generic" }

def pP : Product :=
  { title := "Mouse P", price := some (mkRat 7 1), currency := some '$'
    url := "https://example.com/p/p", store := "ebay" }

def sessW : Session := { plan := planW, products := [pW15, pW40] }

/-! ### Helper lemmas -/

/-- `rank` only reorders the filter-or-fallback base list. -/
theorem rank_perm (plp : Bool) (ps : List Product) (c : Constraints) :
    (rank plp ps c).Perm (rankBase ps c) := by
  cases plp <;> simp [rank, List.perm_insertionSort]

theorem rankBase_ne_nil (ps : List Product) (c : Constraints) (h : ps ≠ []) :
    rankBase ps c ≠ [] := by
  unfold rankBase
  by_cases hf : (ps.filter (passesFilter c)).isEmpty
  · simpa [hf]
  · simp only [hf, if_neg, Bool.false_eq_true, not_false_iff]
    intro hc
    rw [hc] at hf
    simp at hf

/-! ### Claims -/

/-- C1: for every non-empty input product list and every constraint set,
`ProductSelector.rank` returns a non-empty sequence — when the filter pass
eliminates every candidate, the full original list is used instead, so the
result is empty only when the input is. -/
theorem C1_rank_nonempty (prefer_low_price : Bool) (products : List Product)
    (c : Constraints) (h : products ≠ []) :
    rank prefer_low_price products c ≠ [] := by
  intro hnil
  have hp := rank_perm prefer_low_price products c
  rw [hnil] at hp
  exact rankBase_ne_nil products c h hp.nil_eq.symm

theorem C1_rank_nonempty_witness :
    rank true [pW] { max_price := some 1, must_have := ["zzz"] } ≠ [] :=
  C1_rank_nonempty true [pW] { max_price := some 1, must_have := ["zzz"] }
    (by decide)

/-- C2: when `max_price = P` and at least one product survives the filter
pass, every product in the output with a non-null price satisfies
`price ≤ P`; and a product with a null price always passes the price clause
of the filter. -/
theorem C2_max_price_bound (plp : Bool) (ps : List Product) (c : Constraints)
    (P : ℚ) (hmp : c.max_price = some P)
    (hsurv : ps.filter (passesFilter c) ≠ []) :
    (∀ q ∈ rank plp ps c, ∀ pr : ℚ, q.price = some pr → pr ≤ P) ∧
    (∀ p : Product, p.price = none → pricePasses c.max_price p = true) := by
  constructor
  · intro q hq pr hpr
    have hbase : rankBase ps c = ps.filter (passesFilter c) := by
      unfold rankBase
      have : (ps.filter (passesFilter c)).isEmpty = false := by
        cases hfe : (ps.filter (passesFilter c)).isEmpty
        · rfl
        · exact absurd (List.isEmpty_iff.mp hfe) hsurv
      simp [this]
    have hmem : q ∈ ps.filter (passesFilter c) := by
      rw [← hbase]
      exact ((rank_perm plp ps c).mem_iff).mp hq
    have hpass : passesFilter c q = true := List.of_mem_filter hmem
    have hprice : pricePasses c.max_price q = true :=
      (Bool.and_eq_true_iff.mp hpass).1
    unfold pricePasses at hprice
    rw [hmp, hpr] at hprice
    simp only [Bool.not_eq_true', decide_eq_false_iff_not, not_lt] at hprice
    exact hprice
  · intro p hp
    unfold pricePasses
    rw [hp]
    cases c.max_price <;> rfl

theorem C2_max_price_bound_witness :
    (pW15 ∈ rank true [pW15, pW40] { max_price := some 20, must_have := [] }) ∧
      mkRat 15 1 ≤ 20 :=
  ⟨by decide,
   (C2_max_price_bound true [pW15, pW40]
       { max_price := some 20, must_have := [] } 20 rfl (by decide)).1
     pW15 (by decide) (mkRat 15 1) rfl⟩

/-- C3 (counterexample): on the intent `"wireless mouse under $20"` the local
fallback's `query` field is the *full* original intent, not the shortened
search phrase `"wireless mouse"` the claim states. -/
theorem C3_fallback_query_cex :
    (fallbackPlan "wireless mouse under $20").query = "wireless mouse under $20" ∧
    (fallbackPlan "wireless mouse under $20").query ≠ "wireless mouse" := by
  constructor
  · decide
  · decide

/-- C3 (amended): the local heuristic fallback of `LLMPlanner.plan` applied to
`"wireless mouse under $20"` produces
`{query: "wireless mouse under $20", store: None, max_price: 20.0,
must_have: []}` — `max_price` is the regex-extracted ceiling 20, but the
`query` field is the full original intent (the fallback never shortens it). -/
theorem C3_fallback_plan :
    fallbackPlan "wireless mouse under $20" =
      { query := "wireless mouse under $20", store := none
        max_price := some 20, must_have := [] } := by
  decide

/-- C4 (counterexample): when closing the context raises with all three
resources live, `__aexit__` never invokes `browser.close` — only the context
close and the `finally`-guarded `playwright.stop` run — contradicting the
claim that each teardown step is independently guarded. -/
theorem C4_teardown_cex :
    TeardownStep.closeBrowser ∉
      (aexit ⟨true, true, true⟩ ⟨true, false, false⟩).1 ∧
    (aexit ⟨true, true, true⟩ ⟨true, false, false⟩).1 =
      [TeardownStep.closeContext, TeardownStep.stopPlaywright] := by
  constructor
  · decide
  · decide

/-- C4 (amended): teardown invokes close-context, close-browser,
stop-playwright in that order (never out of order, never twice); the
process-resource release `playwright.stop` is guarded by `finally` and runs on
every exit, even when an earlier step raises; but `context.close` and
`browser.close` share a single guard, so a raise in `context.close` skips
`browser.close`. -/
theorem C4_teardown_order (s : BrowserControllerState) (f : TeardownFaults) :
    (aexit s f).1.Sublist
      [TeardownStep.closeContext, TeardownStep.closeBrowser,
       TeardownStep.stopPlaywright] ∧
    (s.hasPlaywright = true → TeardownStep.stopPlaywright ∈ (aexit s f).1) ∧
    (s.hasContext = true → f.contextCloseRaises = true →
      TeardownStep.closeBrowser ∉ (aexit s f).1) ∧
    (f.contextCloseRaises = false → f.browserCloseRaises = false →
      (aexit s f).1 =
        (if s.hasContext then [TeardownStep.closeContext] else []) ++
        (if s.hasBrowser then [TeardownStep.closeBrowser] else []) ++
        (if s.hasPlaywright then [TeardownStep.stopPlaywright] else [])) := by
  obtain ⟨a, b, c⟩ := s
  obtain ⟨x, y, z⟩ := f
  cases a <;> cases b <;> cases c <;> cases x <;> cases y <;> cases z <;>
    exact ⟨by decide, by decide, by decide, by decide⟩

theorem C4_teardown_order_witness :
    TeardownStep.stopPlaywright ∈
      (aexit ⟨true, true, true⟩ ⟨true, true, false⟩).1 :=
  (C4_teardown_order ⟨true, true, true⟩ ⟨true, true, false⟩).2.1 rfl

/-- C5 (counterexample): an out-of-range index on a known session fails with
`HTTPException(400, "Product not found in session")`, while an unknown
session id fails with `HTTPException(404, "Session not found")` — two
*different* errors, contradicting the claim that the selector failure uses
the same error as the unknown-session case. -/
theorem C5_choose_error_cex :
    choose [("s", sessW)] "s" { product_index := some 5, product_url := none } =
      .error (.http 400 "Product not found in session") ∧
    choose [("s", sessW)] "zzz" { product_index := some 5, product_url := none } =
      .error (.http 404 "Session not found") ∧
    ApiError.http 400 "Product not found in session" ≠
      ApiError.http 404 "Session not found" := by
  refine ⟨by decide, by decide, by decide⟩

/-- C5 (amended): on a known session, a non-matching (non-empty) URL or an
out-of-range index fails with the 400 "Product not found in session" error,
whereas an unknown session id fails with the distinct 404 "Session not found"
error. -/
theorem C5_choose_errors (sessions : List (String × Session)) (sid : String)
    (session : Session) (i : ℤ) (u : String)
    (hs : sessionsLookup sessions sid = some session) :
    (u ≠ "" → (∀ p ∈ session.products, p.url ≠ u) →
      choose sessions sid { product_index := some i, product_url := some u } =
        .error (.http 400 "Product not found in session")) ∧
    (¬(0 ≤ i ∧ i < (session.products.length : ℤ)) →
      choose sessions sid { product_index := some i, product_url := none } =
        .error (.http 400 "Product not found in session")) ∧
    (∀ (sid2 : String) (body : ChooseRequest),
      sessionsLookup sessions sid2 = none →
        choose sessions sid2 body = .error (.http 404 "Session not found")) := by
  refine ⟨?_, ?_, ?_⟩
  · intro hu hmatch
    unfold choose
    rw [hs]
    have htr : strTruthy (some u) = true := by
      have : u.isEmpty = false := by
        cases h : u.isEmpty
        · rfl
        · exact absurd ((String.isEmpty_iff u).mp h) hu
      simp [strTruthy, this]
    have hfind : session.products.find? (fun p => p.url = u) = none := by
      rw [List.find?_eq_none]
      intro p hp
      simp [hmatch p hp]
    simp [chooseSelect, htr, hfind]
  · intro hrange
    unfold choose
    rw [hs]
    simp [chooseSelect, strTruthy, hrange]
  · intro sid2 body hnone
    unfold choose
    rw [hnone]

theorem C5_choose_errors_witness :
    choose [("s", sessW)] "s"
        { product_index := some 0, product_url := some "https://nope" } =
      .error (.http 400 "Product not found in session") :=
  (C5_choose_errors [("s", sessW)] "s" sessW 0 "https://nope" (by decide)).1
    (by decide) (by decide)

/-- Looking up `sid` after mutating the session stored under `sid` yields the
new session exactly when `sid` was present. -/
theorem sessionsLookup_update (sessions : List (String × Session))
    (sid : String) (s : Session) :
    sessionsLookup (sessionsUpdate sessions sid s) sid =
      (sessionsLookup sessions sid).map (fun _ => s) := by
  induction sessions with
  | nil => rfl
  | cons e t ih =>
    by_cases h : e.1 = sid
    · simp [sessionsUpdate, sessionsLookup, List.find?_cons, h]
    · simpa [sessionsUpdate, sessionsLookup, List.find?_cons, h] using ih

/-- C6: `checkout` on a known session with no chosen product fails with the
400 invalid-state error "No product chosen for this session"; once a product
is chosen — in particular after any successful `choose` — `checkout` does not
fail and returns the chosen product. -/
theorem C6_checkout_invalid_state (sessions : List (String × Session))
    (sid : String) (session : Session)
    (hs : sessionsLookup sessions sid = some session) :
    (session.chosen = none →
      checkout sessions sid =
        .error (.http 400 "No product chosen for this session")) ∧
    (∀ p : Product, session.chosen = some p → checkout sessions sid = .ok p) ∧
    (∀ (body : ChooseRequest) (sessions2 : List (String × Session))
        (p : Product),
      choose sessions sid body = .ok (sessions2, p) →
        checkout sessions2 sid = .ok p) := by
  refine ⟨?_, ?_, ?_⟩
  · intro hc
    simp only [checkout, hs, hc]
  · intro p hc
    simp only [checkout, hs, hc]
  · intro body sessions2 p hok
    simp only [choose, hs] at hok
    cases hsel : chooseSelect session.products body with
    | none => rw [hsel] at hok; exact absurd hok (by simp)
    | some q =>
      rw [hsel] at hok
      simp only [Except.ok.injEq, Prod.mk.injEq] at hok
      obtain ⟨hsess, hpq⟩ := hok
      simp only [checkout, ← hsess, sessionsLookup_update, hs, hpq]
      rfl

theorem C6_checkout_invalid_state_witness :
    checkout [("s", sessW)] "s" =
      .error (.http 400 "No product chosen for this session") :=
  (C6_checkout_invalid_state [("s", sessW)] "s" sessW (by decide)).1 rfl

theorem takeWhile_append_all {p : Char → Bool} :
    ∀ (l r : List Char), (∀ c ∈ l, p c = true) →
      List.takeWhile p (l ++ r) = l ++ List.takeWhile p r
  | [], _, _ => by simp
  | a :: t, r, h => by
    have ha : p a = true := h a (List.mem_cons_self a t)
    simp only [List.cons_append, List.takeWhile_cons, ha, if_true]
    rw [takeWhile_append_all t r (fun c hc => h c (List.mem_cons_of_mem a hc))]

theorem dropWhile_append_all {p : Char → Bool} :
    ∀ (l r : List Char), (∀ c ∈ l, p c = true) →
      List.dropWhile p (l ++ r) = List.dropWhile p r
  | [], _, _ => by simp
  | a :: t, r, h => by
    have ha : p a = true := h a (List.mem_cons_self a t)
    simp only [List.cons_append, List.dropWhile_cons, ha, if_true]
    exact dropWhile_append_all t r (fun c hc => h c (List.mem_cons_of_mem a hc))

theorem digit_not_pyspace {c : Char} (h : c.isDigit = true) :
    isPySpace c = false := by
  cases hsp : isPySpace c
  · rfl
  · exfalso
    simp only [isPySpace, Bool.or_eq_true, decide_eq_true_eq] at hsp
    rcases hsp with ((((h1 | h1) | h1) | h1) | h1) | h1 <;> subst h1 <;>
      exact absurd h (by decide)

theorem digit_ne_comma {c : Char} (h : c.isDigit = true) : c ≠ ',' := by
  intro heq
  rw [heq] at h
  exact absurd h (by decide)

theorem currency_ne_comma {c : Char} (h : isCurrencySymbol c = true) :
    c ≠ ',' := by
  simp only [isCurrencySymbol, Bool.or_eq_true, decide_eq_true_eq] at h
  rcases h with (h1 | h1) | h1 <;> subst h1 <;> decide

theorem takeWhile_all {p : Char → Bool} {l : List Char}
    (h : ∀ c ∈ l, p c = true) : l.takeWhile p = l := by
  simpa using takeWhile_append_all l [] h

theorem dropWhile_all {p : Char → Bool} {l : List Char}
    (h : ∀ c ∈ l, p c = true) : l.dropWhile p = [] := by
  simpa using dropWhile_append_all l [] h

/-- The price regex matched at the start of `sym :: digits [. frac]`:
captures the symbol and the decimal value. -/
theorem matchPriceAt_currency (sym : Char) (ds fs : List Char)
    (hsym : isCurrencySymbol sym = true)
    (hne : ds ≠ [])
    (hds : ∀ c ∈ ds, c.isDigit = true)
    (hfs : ∀ c ∈ fs, c.isDigit = true)
    (hlen : fs.length ≤ 2) :
    matchPriceAt (sym :: (ds ++ (if fs.isEmpty then [] else '.' :: fs))) =
      some (some sym, decimalVal ds fs) := by
  obtain ⟨d, ds', hcons⟩ : ∃ d ds', ds = d :: ds' := by
    cases hd : ds with
    | nil => exact absurd hd hne
    | cons d t => exact ⟨d, t, rfl⟩
  have hdnotspace : isPySpace d = false :=
    digit_not_pyspace (hds d (by rw [hcons]; exact List.mem_cons_self d ds'))
  cases fs with
  | nil =>
    simp only [List.isEmpty_nil, if_pos, List.append_nil]
    have h2 : ds.dropWhile isPySpace = ds := by
      rw [hcons, List.dropWhile_cons, hdnotspace]
      simp
    have h3 : ds.takeWhile Char.isDigit = ds := takeWhile_all hds
    have h4 : ds.dropWhile Char.isDigit = [] := dropWhile_all hds
    simp only [matchPriceAt, hsym, if_true, h2, h3, h4]
    rw [hcons]
    rfl
  | cons f fs' =>
    simp only [List.isEmpty_cons, if_neg, Bool.false_eq_true, not_false_iff]
    have h2 : (ds ++ '.' :: f :: fs').dropWhile isPySpace =
        ds ++ '.' :: f :: fs' := by
      rw [hcons, List.cons_append, List.dropWhile_cons, hdnotspace]
      simp
    have h3 : (ds ++ '.' :: f :: fs').takeWhile Char.isDigit = ds := by
      rw [takeWhile_append_all ds _ hds, List.takeWhile_cons]
      simp
    have h4 : (ds ++ '.' :: f :: fs').dropWhile Char.isDigit =
        '.' :: f :: fs' := by
      rw [dropWhile_append_all ds _ hds, List.dropWhile_cons]
      simp
    have h5 : (f :: fs').takeWhile Char.isDigit = f :: fs' := takeWhile_all hfs
    simp only [matchPriceAt, hsym, if_true, h2, h3, h4, h5,
      List.take_of_length_le hlen]
    rw [hcons]
    rfl

/-- C7: for every price string made of a leading currency symbol followed by
a comma-grouped decimal number with at most two fraction digits,
`parse_price` strips the grouping commas and returns the exact numeric amount
paired with the symbol (the match at position 0 is the leftmost, so it
wins). -/
theorem C7_parse_price (sym : Char) (gs fs : List Char)
    (hsym : isCurrencySymbol sym = true)
    (hgs : ∀ c ∈ gs, c.isDigit = true ∨ c = ',')
    (hne : gs.filter (fun c => c ≠ ',') ≠ [])
    (hfs : ∀ c ∈ fs, c.isDigit = true)
    (hlen : fs.length ≤ 2) :
    parse_price (some (String.mk
        (sym :: gs ++ (if fs.isEmpty then [] else '.' :: fs)))) =
      (some (decimalVal (gs.filter (fun c => c ≠ ',')) fs), some sym) := by
  have hdsdig : ∀ c ∈ gs.filter (fun c => c ≠ ','), c.isDigit = true := by
    intro c hc
    have hmem := List.mem_filter.mp hc
    rcases hgs c hmem.1 with h | h
    · exact h
    · exact absurd h (by simpa using hmem.2)
  have hfracfilter :
      (if fs.isEmpty then [] else ('.' :: fs : List Char)).filter
        (fun c => c ≠ ',') = (if fs.isEmpty then [] else '.' :: fs) := by
    rw [List.filter_eq_self]
    intro a ha
    by_cases he : fs.isEmpty
    · simp [he] at ha
    · simp only [he, if_neg, Bool.false_eq_true, not_false_iff,
        List.mem_cons] at ha
      rcases ha with rfl | hafs
      · decide
      · simpa using digit_ne_comma (hfs a hafs)
  have hsymne : decide (sym ≠ ',') = true := by
    simpa using currency_ne_comma hsym
  have hfilter :
      (sym :: (gs ++ (if fs.isEmpty then [] else '.' :: fs))).filter
        (fun c => c ≠ ',') =
      sym :: (gs.filter (fun c => c ≠ ',') ++
        (if fs.isEmpty then [] else '.' :: fs)) := by
    rw [List.filter_cons, if_pos hsymne, List.filter_append, hfracfilter]
  have hmatch := matchPriceAt_currency sym (gs.filter (fun c => c ≠ ',')) fs
    hsym hne hdsdig hfs hlen
  have hsearch : searchPrice
      (sym :: (gs.filter (fun c => c ≠ ',') ++
        (if fs.isEmpty then [] else '.' :: fs))) =
      some (some sym, decimalVal (gs.filter (fun c => c ≠ ',')) fs) := by
    unfold searchPrice
    rw [hmatch]
  simp only [parse_price, List.cons_append, List.isEmpty_cons,
    Bool.false_eq_true, if_false]
  rw [hfilter, hsearch]

theorem C7_parse_price_witness :
    parse_price (some "$1,299.99") = (some (mkRat 129999 100), some '$') := by
  have h := C7_parse_price '$' ['1', ',', '2', '9', '9'] ['9', '9']
    (by decide) (by decide) (by decide) (by decide) (by decide)
  have e1 : String.mk ('$' :: ['1', ',', '2', '9', '9'] ++
      (if (['9', '9'] : List Char).isEmpty then [] else '.' :: ['9', '9'])) =
      "$1,299.99" := by decide
  have e2 : decimalVal (['1', ',', '2', '9', '9'].filter (fun c => c ≠ ','))
      ['9', '9'] = mkRat 129999 100 := by decide
  rw [e1, e2] at h
  exact h

/-- C8: in the default ascending-price mode, `rank` sorts stably by the score
key, with unparsed prices scored as zero: two surviving products with equal
effective price keep their relative input order (likewise any pair of the
sorted base list), the output is non-decreasing in score, no product with
positive score precedes an unpriced product, and an unpriced product scores
zero. -/
theorem C8_rank_stable_ascending (ps : List Product) (c : Constraints) :
    (∀ a b : Product, [a, b].Sublist ps → passesFilter c a = true →
      passesFilter c b = true → score a = score b →
      [a, b].Sublist (rank true ps c)) ∧
    (∀ a b : Product, [a, b].Sublist (rankBase ps c) → score a = score b →
      [a, b].Sublist (rank true ps c)) ∧
    (rank true ps c).Pairwise (fun a b => score a ≤ score b) ∧
    (rank true ps c).Pairwise (fun a b => b.price = none → score a ≤ 0) ∧
    (∀ p : Product, p.price = none → score p = 0) := by
  have hrank : rank true ps c =
      List.insertionSort (fun a b => score a ≤ score b) (rankBase ps c) := by
    simp [rank]
  have hbase_stab : ∀ a b : Product, [a, b].Sublist (rankBase ps c) →
      score a = score b → [a, b].Sublist (rank true ps c) := by
    intro a b hsub heq
    rw [hrank]
    exact List.pair_sublist_insertionSort (le_of_eq heq) hsub
  have hsorted : (rank true ps c).Pairwise (fun a b => score a ≤ score b) := by
    rw [hrank]
    haveI : IsTotal Product (fun a b => score a ≤ score b) :=
      ⟨fun a b => le_total (score a) (score b)⟩
    haveI : IsTrans Product (fun a b => score a ≤ score b) :=
      ⟨fun _ _ _ hab hbc => le_trans hab hbc⟩
    exact List.sorted_insertionSort _ _
  have hzero : ∀ p : Product, p.price = none → score p = 0 := by
    intro p hp
    simp [score, ratTruthy, hp]
  refine ⟨?_, hbase_stab, hsorted, ?_, hzero⟩
  · intro a b hsub ha hb heq
    apply hbase_stab a b ?_ heq
    have hfil : [a, b].Sublist (ps.filter (passesFilter c)) := by
      have hf := hsub.filter (passesFilter c)
      simpa [List.filter_cons, ha, hb] using hf
    have hnonempty : (ps.filter (passesFilter c)).isEmpty = false := by
      cases hfe : (ps.filter (passesFilter c)).isEmpty
      · rfl
      · rw [List.isEmpty_iff] at hfe
        rw [hfe] at hfil
        exact absurd hfil (by simp)
    simpa [rankBase, hnonempty] using hfil
  · refine hsorted.imp ?_
    intro a b hab
    intro hbnone
    calc score a ≤ score b := hab
    _ = 0 := hzero b hbnone

theorem C8_rank_stable_ascending_witness :
    [pS1, pS2].Sublist
      (rank true [pP, pS1, pN, pS2] { max_price := none, must_have := [] }) :=
  (C8_rank_stable_ascending [pP, pS1, pN, pS2]
      { max_price := none, must_have := [] }).1 pS1 pS2
    (by decide) (by decide) (by decide) (by decide)

/-- C9 (counterexample): a request supplying *both* fields with
`product_url = ""` and a valid index succeeds via the index even though the
empty URL matches no stored product — Python's `if body.product_url:` treats
the empty string as absent, contradicting the claim that a supplied URL
always decides alone and must match. -/
theorem C9_url_cex :
    pW15.url ≠ "" ∧ pW40.url ≠ "" ∧
    choose [("s", sessW)] "s"
        { product_index := some 0, product_url := some "" } =
      .ok ([("s", { sessW with chosen := some pW15 })], pW15) := by
  refine ⟨by decide, by decide, by decide⟩

/-- C9 (amended): whenever the supplied `product_url` is *non-empty*,
selection is decided by exact URL match alone (the index is ignored), and a
non-matching URL yields the 400 product-not-found error even when the index
is valid; a request supplying neither field fails with that same error; an
empty-string `product_url` is falsy in Python and behaves exactly as an
absent URL, falling through to index selection. -/
theorem C9_url_decides (sessions : List (String × Session)) (sid : String)
    (session : Session) (u : String) (i j : Option ℤ)
    (hs : sessionsLookup sessions sid = some session) (hu : u ≠ "") :
    (choose sessions sid { product_index := i, product_url := some u } =
      choose sessions sid { product_index := j, product_url := some u }) ∧
    ((∀ p ∈ session.products, p.url ≠ u) → ∀ k : ℤ,
      choose sessions sid { product_index := some k, product_url := some u } =
        .error (.http 400 "Product not found in session")) ∧
    (choose sessions sid { product_index := none, product_url := none } =
      .error (.http 400 "Product not found in session")) ∧
    (∀ k : Option ℤ,
      choose sessions sid { product_index := k, product_url := some "" } =
        choose sessions sid { product_index := k, product_url := none }) := by
  have htr : strTruthy (some u) = true := by
    have : u.isEmpty = false := by
      cases h : u.isEmpty
      · rfl
      · exact absurd ((String.isEmpty_iff u).mp h) hu
    simp [strTruthy, this]
  have hsel : ∀ k : Option ℤ,
      chooseSelect session.products { product_index := k, product_url := some u } =
        session.products.find? (fun p => p.url = u) := by
    intro k
    simp [chooseSelect, htr]
  refine ⟨?_, ?_, ?_, ?_⟩
  · simp only [choose, hs, hsel]
  · intro hmatch k
    have hfind : session.products.find? (fun p => p.url = u) = none := by
      rw [List.find?_eq_none]
      intro p hp
      simp [hmatch p hp]
    simp only [choose, hs, hsel, hfind]
  · simp [choose, hs, chooseSelect, strTruthy]
  · intro k
    have hsel2 : chooseSelect session.products
        { product_index := k, product_url := some "" } =
        chooseSelect session.products
          { product_index := k, product_url := none } := rfl
    simp only [choose, hs, hsel2]

theorem C9_url_decides_witness :
    choose [("s", sessW)] "s"
        { product_index := some 0, product_url := some "https://example.com/p/40" } =
      choose [("s", sessW)] "s"
        { product_index := some 99, product_url := some "https://example.com/p/40" } :=
  (C9_url_decides [("s", sessW)] "s" sessW "https://example.com/p/40"
      (some 0) (some 99) (by decide) (by decide)).1

/-- C10: `plan_and_search` stores the complete ranked list in the new session
while returning at most the first 10 summaries; hence every index of the full
ranked list — including indices ≥ 10 never shown in the response — is
selectable by `choose`. -/
theorem C10_full_ranked_stored (sessions : List (String × Session))
    (sid : String) (plan : Plan) (ranked : List Product) (i : ℕ)
    (h : i < ranked.length) :
    ((planAndSearchStore sessions sid plan ranked).2.length =
      min 10 ranked.length) ∧
    (sessionsLookup (planAndSearchStore sessions sid plan ranked).1 sid =
      some { plan := plan, products := ranked }) ∧
    (choose (planAndSearchStore sessions sid plan ranked).1 sid
        { product_index := some (i : ℤ), product_url := none } =
      .ok (sessionsUpdate (planAndSearchStore sessions sid plan ranked).1 sid
            { plan := plan, products := ranked
              chosen := some (ranked.get ⟨i, h⟩) },
          ranked.get ⟨i, h⟩)) := by
  have hlookup :
      sessionsLookup (planAndSearchStore sessions sid plan ranked).1 sid =
        some { plan := plan, products := ranked } := by
    simp [planAndSearchStore, sessionsLookup, List.find?_cons]
  refine ⟨?_, hlookup, ?_⟩
  · simp [planAndSearchStore]
  · have hsel : chooseSelect ranked
        { product_index := some (i : ℤ), product_url := none } =
        some (ranked.get ⟨i, h⟩) := by
      have hcond : 0 ≤ (i : ℤ) ∧ (i : ℤ) < (ranked.length : ℤ) :=
        ⟨Int.ofNat_nonneg i, by exact_mod_cast h⟩
      simp only [chooseSelect, strTruthy, dif_pos hcond]
      refine congrArg some (congrArg ranked.get (Fin.ext ?_))
      simp
    simp only [choose, hlookup, hsel]

theorem C10_full_ranked_stored_witness :
    choose (planAndSearchStore [] "s" planW (List.replicate 11 pW)).1 "s"
        { product_index := some ((10 : ℕ) : ℤ), product_url := none } =
      .ok (sessionsUpdate (planAndSearchStore [] "s" planW
              (List.replicate 11 pW)).1 "s"
            { plan := planW, products := List.replicate 11 pW
              chosen := some ((List.replicate 11 pW).get ⟨10, by decide⟩) },
          (List.replicate 11 pW).get ⟨10, by decide⟩) :=
  (C10_full_ranked_stored [] "s" planW (List.replicate 11 pW) 10
    (by decide)).2.2

end Shopper
